import Mathlib

/-!
# NABU floppy disk controller card (`nabu_fdc.c`, `nabu_fdc.h`)

A shallow embedding of the FDC context object, of `fdc_init`, `fdc_attach`
and of the two register entry points, followed by the properties of the
code that were checked against the specification.

Conventions of the embedding

* `uint8_t` values are natural numbers; a value passed as a `uint8_t`
  argument is reduced modulo 256, as the C conversion does.
* `int` and `long` values are integers; where a `long` is stored in an `int` the
  value is reduced to 32 bits (`int_of_long`).
* A pointer field is modelled by what it points to: `char *source` is an
  optional string, `uint8_t *data` is a `DataPtr`.
* A C function that works through `fdc_context_t *fd` takes the context and
  returns the context it leaves behind.
* A non-void function whose body has no `return` statement yields no defined
  value; its result is `none`.
-/

namespace NabuFdc

/-! ## Data model (`nabu_fdc.h`) -/

/-- Number of drives on the card (`#define FDC_NUM_DISKS 2`). -/
abbrev FDC_NUM_DISKS : Nat := 2

/-- State of the `uint8_t *data` field of a drive slot: the null pointer, a
live heap buffer with its bytes, or a pointer whose buffer was handed back
to `free` (a dangling, non-null pointer). -/
inductive DataPtr where
  | null : DataPtr
  | buf (bytes : List Nat) : DataPtr
  | freed : DataPtr
  deriving DecidableEq

/-- One drive slot (`fdc_disk_t`). -/
structure fdc_disk_t where
  source : Option String
  data : DataPtr
  size : Int
  sec_size : Int
  sec_count : Int
  track_count : Int
  track : Int
  deriving DecidableEq

/-- The controller context (`fdc_context_t`): drives A and B and the four
registers. -/
structure fdc_context_t where
  disk : Fin FDC_NUM_DISKS → fdc_disk_t
  command : Nat
  status : Nat
  track : Nat
  sector : Nat

/-! ## The C library as seen by `fdc_attach` -/

/-- A file as `fopen`/`ftell`/`fread` present it: its bytes, and the number of
leading bytes that `fread` can deliver before it meets an I/O error (at least
the length of `bytes` for a healthy file). The length of `bytes` is what
`ftell` reports at the end of the file. -/
structure File where
  bytes : List Nat
  readable : Nat
  deriving DecidableEq

/-- The files that `fopen(fname, "rb")` can open; `none` is a failed open. -/
abbrev FileSys := String → Option File

/-- Position reported by `ftell` after `fseek(img, 0, SEEK_END)`, a `long`: the length
of the file. -/
def ftell_end (f : File) : Int := (f.bytes.length : Int)

/-- Conversion of a `long` to the `int` it is assigned to (`int size;` ...
`size = ftell(img);`): the value is reduced to 32 bits in two's complement, as on the
platforms with a 64-bit `long` and a 32-bit `int`. -/
def int_of_long (n : Int) : Int := (n + 2147483648) % 4294967296 - 2147483648

/-- Bytes stored by `fread(buf, 1, n, img)` from position 0; the return value
of `fread` is the length of this list. -/
def fread (f : File) (n : Nat) : List Nat := f.bytes.take (min n f.readable)

/-! ## `nabu_fdc.c` -/

/-- Store `d` in `fd->disk[i]`; the callers only use it with `i` in range. -/
def setDisk (fd : fdc_context_t) (i : Fin FDC_NUM_DISKS) (d : fdc_disk_t) : fdc_context_t :=
  { fd with disk := Function.update fd.disk i d }

/-- Body of the loop of `fdc_init` for index `i`. -/
def fdc_init_disk (fd : fdc_context_t) (i : Nat) : fdc_context_t :=
  if h : i < FDC_NUM_DISKS then
    setDisk fd ⟨i, h⟩ { fd.disk ⟨i, h⟩ with source := none, data := DataPtr.null, size := 0 }
  else fd

/-- Embedding of `void fdc_init(fdc_context_t *fd)`: the loop over the drives, then the
chained assignment to the registers. -/
def fdc_init (fd : fdc_context_t) : fdc_context_t :=
  let fd1 := (List.range FDC_NUM_DISKS).foldl fdc_init_disk fd
  { fd1 with command := 0, status := 0, track := 0, sector := 0 }

/-- Embedding of `char fdc_attach(fdc_context_t *fd, char *fname, int unit)`.

The result is `none` when the call runs into undefined behaviour (a store
through `&fd->disk[unit]` with a negative `unit`), otherwise the returned
code together with the context left behind. `malloc` is taken to succeed. -/
def fdc_attach (fs : FileSys) (fd : fdc_context_t) (fname : String) (unit : Int) :
    Option (Nat × fdc_context_t) :=
  -- Unit sanity check
  if unit ≥ (FDC_NUM_DISKS : Int) then some (3, fd)
  else
    -- Open image
    match fs fname with
    | none => some (1, fd)
    | some img =>
      -- Detect image type
      let size := int_of_long (ftell_end img)
      if size = 204800 then
        if h : 0 ≤ unit ∧ unit.toNat < FDC_NUM_DISKS then
          let i : Fin FDC_NUM_DISKS := ⟨unit.toNat, h.2⟩
          let disk0 := fd.disk i
          let disk1 : fdc_disk_t :=
            { disk0 with size := size, sec_size := 1024, sec_count := 5, track_count := 40 }
          -- Buffer image
          let got := fread img disk1.size.toNat
          if (got.length : Int) < disk1.size then
            -- Return error if cannot read
            some (1, setDisk fd i { disk1 with data := DataPtr.freed })
          else
            -- Copy source file name for writeback
            some (0, setDisk fd i { disk1 with data := DataPtr.buf got, source := some fname })
        else none
      else some (2, fd)

/-- Embedding of `void fdc_command(fdc_context_t *fd, uint8_t data)`: the body is empty. -/
def fdc_command (fd : fdc_context_t) (_data : Nat) : fdc_context_t := fd

/-- Embedding of `uint8_t fdc_status(fdc_context_t *fd)`: the body is empty, no value is
returned. -/
def fdc_status (fd : fdc_context_t) : Option Nat × fdc_context_t := (none, fd)

/-- Embedding of `void fdc_dwrite(fdc_context_t *fd, uint8_t data)`: the body is empty. -/
def fdc_dwrite (fd : fdc_context_t) (_data : Nat) : fdc_context_t := fd

/-- Embedding of `uint8_t fdc_dread(fdc_context_t *fd)`: the body is empty, no value is
returned. -/
def fdc_dread (fd : fdc_context_t) : Option Nat × fdc_context_t := (none, fd)

/-- Embedding of `void fdc_wden(fdc_context_t *fd, uint8_t data)`: the body is empty. -/
def fdc_wden (fd : fdc_context_t) (_data : Nat) : fdc_context_t := fd

/-- Embedding of `void fdc_write(fdc_context_t *fd, uint8_t address, uint8_t data)`. -/
def fdc_write (fd : fdc_context_t) (address data : Nat) : fdc_context_t :=
  match address % 256 with
  | 0x0 => fdc_command fd (data % 256)
  | 0x1 => { fd with track := data % 256 }
  | 0x2 => { fd with sector := data % 256 }
  | 0x3 => fdc_dwrite fd (data % 256)
  | 0xF => fdc_wden fd (data % 256)
  | _ => fd

/-- Embedding of the read entry point, the second function of `nabu_fdc.c`
(lines 202-224). The header declares it as
`uint8_t fdc_read(fdc_context_t *fd, uint8_t address)`; the definition in the
`.c` file carries the name `fdc_write` a second time. The result is the byte
returned (`none` when the callee returns no value) and the context left
behind. -/
def fdc_read (fd : fdc_context_t) (address : Nat) : Option Nat × fdc_context_t :=
  match address % 256 with
  | 0x0 => fdc_status fd
  | 0x1 => (some fd.track, fd)
  | 0x2 => (some fd.sector, fd)
  | 0x3 => fdc_dread fd
  | 0xF => (some 0x10, fd)
  | _ => (some 0xFF, fd)

/-! ## Concrete inputs used to run the code -/

/-- Content of a context before `fdc_init` runs on it: stale values in every field. -/
def staleDisk : fdc_disk_t :=
  { source := some "old.img", data := DataPtr.freed, size := 77,
    sec_size := 1, sec_count := 2, track_count := 3, track := 4 }

/-- A context holding stale values in both slots and in the registers. -/
def staleCtx : fdc_context_t :=
  { disk := fun _ => staleDisk, command := 9, status := 8, track := 7, sector := 6 }

/-- A healthy 204800-byte image, every byte `0xE5`. -/
def goodImage : File := { bytes := List.replicate 204800 0xE5, readable := 204800 }

/-- A 204800-byte image of which only the first 512 bytes can be read. -/
def tornImage : File := { bytes := List.replicate 204800 0xE5, readable := 512 }

/-- A three-byte file. -/
def shortImage : File := { bytes := [1, 2, 3], readable := 3 }

/-- A healthy file of 2^32 + 204800 = 4295172096 bytes, every byte `0xE5`. -/
def hugeImage : File := { bytes := List.replicate 4295172096 0xE5, readable := 4295172096 }

/-- File system with the four files above. -/
def sampleFs : FileSys := fun name =>
  if name = "good.img" then some goodImage
  else if name = "torn.img" then some tornImage
  else if name = "short.img" then some shortImage
  else if name = "huge.img" then some hugeImage
  else none

/-! ## Notions used to state the properties -/

/-- A drive slot as `fdc_init` leaves it: no source, no buffer, size 0. -/
def slot_empty (d : fdc_disk_t) : Prop :=
  d.source = none ∧ d.data = DataPtr.null ∧ d.size = 0

instance (d : fdc_disk_t) : Decidable (slot_empty d) := by
  unfold slot_empty; infer_instance

/-- The geometry equation of a drive slot. -/
def geometry_ok (d : fdc_disk_t) : Prop :=
  d.size = d.sec_size * d.sec_count * d.track_count

instance (d : fdc_disk_t) : Decidable (geometry_ok d) := by
  unfold geometry_ok; infer_instance

/-- Contexts that the public entry points can produce: `fdc_init` on any prior
content of the context, then any number of `fdc_attach` calls that return
(each against the file system of the moment), register writes and register
reads. -/
inductive Reachable : fdc_context_t → Prop where
  | init (fd0 : fdc_context_t) : Reachable (fdc_init fd0)
  | attach {fd fd' : fdc_context_t} (fs : FileSys) (fname : String) (unit : Int) (code : Nat) :
      Reachable fd → fdc_attach fs fd fname unit = some (code, fd') → Reachable fd'
  | write {fd : fdc_context_t} (address data : Nat) :
      Reachable fd → Reachable (fdc_write fd address data)
  | read {fd : fdc_context_t} (address : Nat) :
      Reachable fd → Reachable (fdc_read fd address).2

/-! ## Basic facts -/

theorem fdc_init_eq (fd : fdc_context_t) :
    fdc_init fd =
      { disk := fun i => { fd.disk i with source := none, data := DataPtr.null, size := 0 },
        command := 0, status := 0, track := 0, sector := 0 } := by
  have hr : List.range FDC_NUM_DISKS = [0, 1] := by decide
  simp only [fdc_init, hr, List.foldl, fdc_init_disk, setDisk]
  congr 1
  funext i
  fin_cases i <;> simp [Function.update]

theorem fread_full (img : File) (hsize : img.bytes.length = 204800)
    (hread : 204800 ≤ img.readable) : fread img 204800 = img.bytes := by
  unfold fread
  rw [Nat.min_eq_left hread]
  exact List.take_of_length_le (by omega)

theorem fread_length (img : File) (n : Nat) :
    (fread img n).length = min (min n img.readable) img.bytes.length := by
  simp [fread, List.length_take]

/-- A size below 2^31 is stored in the `int` as it is. -/
theorem int_of_long_small (n : Nat) (h : n < 2147483648) : int_of_long (n : Int) = n := by
  unfold int_of_long
  omega

/-- What `fdc_attach` does on a unit in range with an image whose size, as stored in the
`int`, is 204800, in terms of the number of bytes `fread` delivers. -/
theorem fdc_attach_int_204800 (fs : FileSys) (fd : fdc_context_t) (fname : String)
    (i : Fin FDC_NUM_DISKS) (img : File) (hopen : fs fname = some img)
    (hsz : int_of_long (ftell_end img) = 204800) :
    fdc_attach fs fd fname (i : Nat) =
      if (fread img 204800).length < 204800 then
        some (1, setDisk fd i
          { fd.disk i with size := 204800, sec_size := 1024, sec_count := 5,
                           track_count := 40, data := DataPtr.freed })
      else
        some (0, setDisk fd i
          { fd.disk i with size := 204800, sec_size := 1024, sec_count := 5,
                           track_count := 40, data := DataPtr.buf (fread img 204800),
                           source := some fname }) := by
  have hi : (i : Nat) < 2 := i.isLt
  have h1 : ¬ ((i : Nat) : Int) ≥ ((FDC_NUM_DISKS : Nat) : Int) := by
    simp only [FDC_NUM_DISKS]; omega
  have h2 : 0 ≤ ((i : Nat) : Int) ∧ (((i : Nat) : Int)).toNat < FDC_NUM_DISKS := by
    constructor
    · omega
    · simp
  unfold fdc_attach
  rw [if_neg h1]
  simp only [hopen, hsz]
  rw [if_pos trivial, dif_pos h2]
  simp only [Int.toNat_ofNat, Fin.eta]
  have e : (204800 : Int).toNat = 204800 := by decide
  rw [e]
  by_cases hr : (fread img 204800).length < 204800
  · have : ((fread img 204800).length : Int) < 204800 := by omega
    rw [if_pos this, if_pos hr]
  · have : ¬ ((fread img 204800).length : Int) < 204800 := by omega
    rw [if_neg this, if_neg hr]

/-- What `fdc_attach` does on a unit in range with an image of 204800 bytes, in
terms of the number of bytes `fread` delivers. -/
theorem fdc_attach_204800 (fs : FileSys) (fd : fdc_context_t) (fname : String)
    (i : Fin FDC_NUM_DISKS) (img : File) (hopen : fs fname = some img)
    (hsize : img.bytes.length = 204800) :
    fdc_attach fs fd fname (i : Nat) =
      if img.readable < 204800 then
        some (1, setDisk fd i
          { fd.disk i with size := 204800, sec_size := 1024, sec_count := 5,
                           track_count := 40, data := DataPtr.freed })
      else
        some (0, setDisk fd i
          { fd.disk i with size := 204800, sec_size := 1024, sec_count := 5,
                           track_count := 40, data := DataPtr.buf img.bytes,
                           source := some fname }) := by
  have hsz : int_of_long (ftell_end img) = 204800 := by
    unfold ftell_end
    rw [int_of_long_small _ (by omega), hsize]
    rfl
  have hlen : (fread img 204800).length = min img.readable 204800 := by
    rw [fread_length, hsize]; omega
  rw [fdc_attach_int_204800 fs fd fname i img hopen hsz]
  by_cases hr : img.readable < 204800
  · rw [if_pos (by rw [hlen]; omega), if_pos hr]
  · rw [if_neg (by rw [hlen]; omega), if_neg hr, fread_full img hsize (by omega)]

/-- For a unit of 2 or more `fdc_attach` returns 3 and leaves the context alone. -/
theorem fdc_attach_unit_too_large (fs : FileSys) (fd : fdc_context_t) (fname : String)
    (unit : Int) (h : 2 ≤ unit) : fdc_attach fs fd fname unit = some (3, fd) := by
  unfold fdc_attach
  rw [if_pos (by simpa using h)]

/-- When the file cannot be opened `fdc_attach` returns 1 on a unit below 2 and leaves
the context alone. -/
theorem fdc_attach_open_failed (fs : FileSys) (fd : fdc_context_t) (fname : String)
    (unit : Int) (h : unit < 2) (hopen : fs fname = none) :
    fdc_attach fs fd fname unit = some (1, fd) := by
  unfold fdc_attach
  rw [if_neg (by simp only [FDC_NUM_DISKS]; push_cast; omega)]
  simp only [hopen]

/-- When the file opens and its size, as stored in the `int`, is not 204800, `fdc_attach`
returns 2 on a unit below 2 and leaves the context alone. -/
theorem fdc_attach_other_size (fs : FileSys) (fd : fdc_context_t) (fname : String)
    (unit : Int) (img : File) (h : unit < 2) (hopen : fs fname = some img)
    (hsz : int_of_long (ftell_end img) ≠ 204800) :
    fdc_attach fs fd fname unit = some (2, fd) := by
  unfold fdc_attach
  rw [if_neg (by simp only [FDC_NUM_DISKS]; push_cast; omega)]
  simp only [hopen]
  rw [if_neg hsz]

/-- When the file opens and its size is below 2^31 and not 204800, `fdc_attach` returns 2
on a unit below 2 and leaves the context alone. -/
theorem fdc_attach_other_size_small (fs : FileSys) (fd : fdc_context_t) (fname : String)
    (unit : Int) (img : File) (h : unit < 2) (hopen : fs fname = some img)
    (hsize : img.bytes.length ≠ 204800) (hfit : img.bytes.length < 2147483648) :
    fdc_attach fs fd fname unit = some (2, fd) := by
  apply fdc_attach_other_size fs fd fname unit img h hopen
  unfold ftell_end
  rw [int_of_long_small _ hfit]
  intro hc
  apply hsize
  exact_mod_cast hc

/-- Every slot that a returning `fdc_attach` touches gets the 1024x5x40 geometry. -/
theorem fdc_attach_slots (fs : FileSys) (fd fd' : fdc_context_t) (fname : String)
    (unit : Int) (code : Nat) (h : fdc_attach fs fd fname unit = some (code, fd'))
    (i : Fin FDC_NUM_DISKS) :
    fd'.disk i = fd.disk i ∨
      ((fd'.disk i).size = 204800 ∧ (fd'.disk i).sec_size = 1024 ∧
        (fd'.disk i).sec_count = 5 ∧ (fd'.disk i).track_count = 40) := by
  by_cases hu : 2 ≤ unit
  · rw [fdc_attach_unit_too_large fs fd fname unit hu] at h
    simp only [Option.some.injEq, Prod.mk.injEq] at h
    left; rw [← h.2]
  · have hlt : unit < 2 := by omega
    cases hopen : fs fname with
    | none =>
      rw [fdc_attach_open_failed fs fd fname unit hlt hopen] at h
      simp only [Option.some.injEq, Prod.mk.injEq] at h
      left; rw [← h.2]
    | some img =>
      by_cases hsize : int_of_long (ftell_end img) = 204800
      · by_cases hneg : unit < 0
        · exfalso
          unfold fdc_attach at h
          rw [if_neg (by simp only [FDC_NUM_DISKS]; push_cast; omega)] at h
          simp only [hopen, hsize] at h
          rw [if_pos trivial, dif_neg (by omega)] at h
          exact Option.noConfusion h
        · have hn : unit.toNat < FDC_NUM_DISKS := by simp only [FDC_NUM_DISKS]; omega
          have hcast : (((⟨unit.toNat, hn⟩ : Fin FDC_NUM_DISKS) : Nat) : Int) = unit := by
            simp only []; omega
          have key := fdc_attach_int_204800 fs fd fname ⟨unit.toNat, hn⟩ img hopen hsize
          rw [hcast, h] at key
          by_cases hi : i = ⟨unit.toNat, hn⟩
          · right
            split at key <;>
              · simp only [Option.some.injEq, Prod.mk.injEq] at key
                rw [key.2, hi]
                simp [setDisk]
          · left
            split at key <;>
              · simp only [Option.some.injEq, Prod.mk.injEq] at key
                rw [key.2]
                simp [setDisk, Function.update, hi]
      · rw [fdc_attach_other_size fs fd fname unit img hlt hopen hsize] at h
        simp only [Option.some.injEq, Prod.mk.injEq] at h
        left; rw [← h.2]

theorem fdc_write_disk (fd : fdc_context_t) (address data : Nat) :
    (fdc_write fd address data).disk = fd.disk := by
  unfold fdc_write
  split <;> rfl

theorem fdc_read_ctx (fd : fdc_context_t) (address : Nat) : (fdc_read fd address).2 = fd := by
  unfold fdc_read
  split <;> rfl

/-! ## Properties of `fdc_init` and `fdc_attach` -/

/-- C1: on a unit in {0, 1} and a file that opens, has exactly 204800 bytes and is read in
full, `fdc_attach` returns 0 from every context and leaves the slot of the unit with
size 204800, sector size 1024, 5 sectors per track, 40 tracks, a buffer equal to the
bytes of the file in order, and the file name as source. -/
theorem fdc_attach_success (fs : FileSys) (fd : fdc_context_t) (fname : String) (unit : Int)
    (img : File) (hunit : unit = 0 ∨ unit = 1) (hopen : fs fname = some img)
    (hsize : img.bytes.length = 204800) (hread : 204800 ≤ img.readable) :
    ∃ (i : Fin FDC_NUM_DISKS) (fd' : fdc_context_t),
      ((i : Nat) : Int) = unit ∧
      fdc_attach fs fd fname unit = some (0, fd') ∧
      (fd'.disk i).size = 204800 ∧ (fd'.disk i).sec_size = 1024 ∧
      (fd'.disk i).sec_count = 5 ∧ (fd'.disk i).track_count = 40 ∧
      (fd'.disk i).data = DataPtr.buf img.bytes ∧ (fd'.disk i).source = some fname := by
  have hn : unit.toNat < FDC_NUM_DISKS := by
    rcases hunit with h | h <;> subst h <;> decide
  have hcast : (((⟨unit.toNat, hn⟩ : Fin FDC_NUM_DISKS) : Nat) : Int) = unit := by
    rcases hunit with h | h <;> subst h <;> rfl
  have key := fdc_attach_204800 fs fd fname ⟨unit.toNat, hn⟩ img hopen hsize
  rw [hcast, if_neg (by omega)] at key
  exact ⟨⟨unit.toNat, hn⟩, _, hcast, key, by simp [setDisk]⟩

theorem fdc_attach_success_witness :
    ∃ (i : Fin FDC_NUM_DISKS) (fd' : fdc_context_t),
      ((i : Nat) : Int) = 0 ∧
      fdc_attach sampleFs (fdc_init staleCtx) "good.img" 0 = some (0, fd') ∧
      (fd'.disk i).size = 204800 ∧ (fd'.disk i).sec_size = 1024 ∧
      (fd'.disk i).sec_count = 5 ∧ (fd'.disk i).track_count = 40 ∧
      (fd'.disk i).data = DataPtr.buf goodImage.bytes ∧
      (fd'.disk i).source = some "good.img" :=
  fdc_attach_success sampleFs (fdc_init staleCtx) "good.img" 0 goodImage
    (Or.inl rfl) rfl (List.length_replicate _ _) (by decide)

/-- C2, the code at a size that is 204800 modulo 2^32: `huge.img` opens and has
4295172096 bytes, not 204800, yet on the reset context and unit 0 `fdc_attach` does not
return 2. The `int` that receives the result of `ftell` holds 204800, the image is taken
for a 1024x5x40 disk, its first 204800 bytes are buffered and the call returns 0, leaving
slot 0 attached where it was empty. -/
theorem fdc_attach_truncated_size :
    hugeImage.bytes.length = 4295172096 ∧ hugeImage.bytes.length ≠ 204800 ∧
    204800 ≤ hugeImage.readable ∧
    ∃ fd' : fdc_context_t,
      fdc_attach sampleFs (fdc_init staleCtx) "huge.img" 0 = some (0, fd') ∧
      fdc_attach sampleFs (fdc_init staleCtx) "huge.img" 0 ≠ some (2, fdc_init staleCtx) ∧
      slot_empty ((fdc_init staleCtx).disk 0) ∧
      (fd'.disk 0).size = 204800 ∧ (fd'.disk 0).sec_size = 1024 ∧
      (fd'.disk 0).sec_count = 5 ∧ (fd'.disk 0).track_count = 40 ∧
      (fd'.disk 0).data = DataPtr.buf (hugeImage.bytes.take 204800) ∧
      (fd'.disk 0).source = some "huge.img" ∧
      ¬ slot_empty (fd'.disk 0) := by
  have hl : hugeImage.bytes.length = 4295172096 := List.length_replicate _ _
  have hsz : int_of_long (ftell_end hugeImage) = 204800 := by
    unfold ftell_end
    rw [hl]
    rfl
  have hfr : fread hugeImage 204800 = hugeImage.bytes.take 204800 := rfl
  have hlen : (fread hugeImage 204800).length = 204800 := by
    rw [hfr, List.length_take, hl]
    rfl
  have key := fdc_attach_int_204800 sampleFs (fdc_init staleCtx) "huge.img" 0 hugeImage rfl hsz
  rw [if_neg (by rw [hlen]; exact Nat.lt_irrefl _), hfr] at key
  refine ⟨hl, by rw [hl]; decide, by decide, _, key, ?_, ?_, ?_⟩
  · intro hc
    have h02 := key.symm.trans hc
    simp only [Option.some.injEq, Prod.mk.injEq] at h02
    exact absurd h02.1 (by decide)
  · simp [fdc_init_eq, slot_empty]
  · simp only [setDisk, Function.update_same, slot_empty]
    refine ⟨trivial, trivial, trivial, trivial, trivial, trivial, ?_⟩
    intro hc
    exact absurd hc.1 (by simp)

/-- C3, the code at a negative unit: with unit -1 and a file that does not open,
`fdc_attach` passes the unit check and returns 1, not 3. With unit -1 and a 204800-byte
image it goes on to store through `&fd->disk[-1]`, outside of the context. -/
theorem fdc_attach_negative_unit :
    fdc_attach sampleFs (fdc_init staleCtx) "missing.img" (-1) = some (1, fdc_init staleCtx) ∧
    fdc_attach sampleFs (fdc_init staleCtx) "missing.img" (-1) ≠ some (3, fdc_init staleCtx) ∧
    fdc_attach sampleFs (fdc_init staleCtx) "good.img" (-1) = none := by
  have h1 : fdc_attach sampleFs (fdc_init staleCtx) "missing.img" (-1)
      = some (1, fdc_init staleCtx) :=
    fdc_attach_open_failed sampleFs (fdc_init staleCtx) "missing.img" (-1) (by decide)
      rfl
  refine ⟨h1, ?_, ?_⟩
  · rw [h1]
    intro hc
    simp only [Option.some.injEq, Prod.mk.injEq] at hc
    exact absurd hc.1 (by decide)
  · have hopen : sampleFs "good.img" = some goodImage := rfl
    unfold fdc_attach
    rw [if_neg (by decide)]
    have hsz : int_of_long (ftell_end goodImage) = 204800 := by
      unfold ftell_end
      rw [show goodImage.bytes.length = 204800 from List.length_replicate _ _]
      rfl
    simp only [hopen, hsz]
    rw [if_pos trivial, dif_neg (by decide)]

/-- C4, the code at a short read: on the reset context, unit 0 and a 204800-byte image of
which `fread` delivers 512 bytes, `fdc_attach` returns 1 and leaves slot 0 with size
204800, the 1024x5x40 geometry and a freed, non-null buffer pointer; the slot is no
longer empty and is not what it was before the call. -/
theorem fdc_attach_short_read :
    ∃ fd' : fdc_context_t,
      fdc_attach sampleFs (fdc_init staleCtx) "torn.img" 0 = some (1, fd') ∧
      slot_empty ((fdc_init staleCtx).disk 0) ∧
      (fd'.disk 0).size = 204800 ∧ (fd'.disk 0).sec_size = 1024 ∧
      (fd'.disk 0).sec_count = 5 ∧ (fd'.disk 0).track_count = 40 ∧
      (fd'.disk 0).data = DataPtr.freed ∧
      ¬ slot_empty (fd'.disk 0) ∧ fd'.disk 0 ≠ (fdc_init staleCtx).disk 0 := by
  have hopen : sampleFs "torn.img" = some tornImage := rfl
  have hsize : tornImage.bytes.length = 204800 := List.length_replicate _ _
  have key := fdc_attach_204800 sampleFs (fdc_init staleCtx) "torn.img" 0 tornImage hopen hsize
  rw [if_pos (by decide)] at key
  refine ⟨_, key, ?_, ?_⟩
  · simp [fdc_init_eq, slot_empty]
  · simp [setDisk, slot_empty, fdc_init_eq]

/-- C10: from every prior context `fdc_init` yields a context whose two slots are empty
(no source, no buffer, size 0) and whose command, status, track and sector registers
are 0; the result is the same whatever values those fields held before. -/
theorem fdc_init_reset (fd : fdc_context_t) :
    (∀ i : Fin FDC_NUM_DISKS,
      ((fdc_init fd).disk i).source = none ∧ ((fdc_init fd).disk i).data = DataPtr.null ∧
        ((fdc_init fd).disk i).size = 0) ∧
    (fdc_init fd).command = 0 ∧ (fdc_init fd).status = 0 ∧
    (fdc_init fd).track = 0 ∧ (fdc_init fd).sector = 0 ∧
    ∀ (src : Fin FDC_NUM_DISKS → Option String) (dat : Fin FDC_NUM_DISKS → DataPtr)
      (sz : Fin FDC_NUM_DISKS → Int) (c s t sc : Nat),
      fdc_init
        { disk := fun i => { fd.disk i with source := src i, data := dat i, size := sz i },
          command := c, status := s, track := t, sector := sc } = fdc_init fd := by
  refine ⟨?_, ?_, ?_, ?_, ?_, ?_⟩
  · intro i; simp [fdc_init_eq]
  · simp [fdc_init_eq]
  · simp [fdc_init_eq]
  · simp [fdc_init_eq]
  · simp [fdc_init_eq]
  · intro src dat sz c s t sc
    simp [fdc_init_eq]

/-! ## Properties of the register entry points -/

/-- C5, the code on a Read Sector sequence: after `good.img` (204800 bytes, first byte
0xE5) is attached to unit 0, track is set to 0 and sector to 1, a write of any command
byte to offset 0x0 changes nothing, and the read of the data register at offset 0x3
returns no defined value (not the byte 0xE5) and leaves the context as it is. -/
theorem fdc_read_sector_unimplemented :
    ∃ fd1 : fdc_context_t,
      fdc_attach sampleFs (fdc_init staleCtx) "good.img" 0 = some (0, fd1) ∧
      (fd1.disk 0).data = DataPtr.buf goodImage.bytes ∧
      goodImage.bytes.head? = some 0xE5 ∧
      ∀ cmd : Nat,
        fdc_write (fdc_write (fdc_write fd1 1 0) 2 1) 0 cmd = fdc_write (fdc_write fd1 1 0) 2 1 ∧
        (fdc_read (fdc_write (fdc_write (fdc_write fd1 1 0) 2 1) 0 cmd) 3).1 = none ∧
        (fdc_read (fdc_write (fdc_write (fdc_write fd1 1 0) 2 1) 0 cmd) 3).1 ≠ some 0xE5 := by
  have hsize : goodImage.bytes.length = 204800 := List.length_replicate _ _
  have key := fdc_attach_204800 sampleFs (fdc_init staleCtx) "good.img" 0 goodImage rfl hsize
  rw [if_neg (by decide)] at key
  refine ⟨_, key, ?_, rfl, ?_⟩
  · simp [setDisk]
  · intro cmd
    refine ⟨rfl, rfl, ?_⟩
    intro hc
    exact Option.noConfusion hc

/-- C6, the code on a Restore command: with the track register at 5, a write of any
command byte to offset 0x0 leaves the track register at 5 (the read of offset 0x1
returns 5, not 0), and the read of the status at offset 0x0 returns no defined value. -/
theorem fdc_restore_unimplemented (cmd : Nat) :
    (fdc_read (fdc_write (fdc_write (fdc_init staleCtx) 1 5) 0 cmd) 1).1 = some 5 ∧
    (fdc_read (fdc_write (fdc_write (fdc_init staleCtx) 1 5) 0 cmd) 1).1 ≠ some 0 ∧
    (fdc_read (fdc_write (fdc_write (fdc_init staleCtx) 1 5) 0 cmd) 0).1 = none := by
  refine ⟨rfl, ?_, rfl⟩
  intro hc
  have h5 : (fdc_read (fdc_write (fdc_write (fdc_init staleCtx) 1 5) 0 cmd) 1).1 = some 5 := rfl
  rw [h5] at hc
  exact absurd (Option.some.inj hc) (by decide)

/-- C9: in every context reachable from `fdc_init` by `fdc_attach` calls, register writes
and register reads, every slot that is not in the empty state of `fdc_init` (so every
slot holding an attached image) satisfies size = sec_size * sec_count * track_count. -/
theorem reachable_geometry (fd : fdc_context_t) (hreach : Reachable fd)
    (i : Fin FDC_NUM_DISKS) (hne : ¬ slot_empty (fd.disk i)) : geometry_ok (fd.disk i) := by
  induction hreach with
  | init fd0 =>
    exfalso; apply hne
    simp [fdc_init_eq, slot_empty]
  | attach fs fname unit code _ hatt ih =>
    rcases fdc_attach_slots fs _ _ fname unit code hatt i with h | ⟨hs, hss, hsc, htc⟩
    · rw [h] at hne ⊢
      exact ih hne
    · unfold geometry_ok
      rw [hs, hss, hsc, htc]
      norm_num
  | write address data _ ih =>
    rw [fdc_write_disk] at hne ⊢
    exact ih hne
  | read address _ ih =>
    rw [fdc_read_ctx] at hne ⊢
    exact ih hne

theorem reachable_geometry_witness :
    ∃ fd : fdc_context_t,
      fdc_attach sampleFs (fdc_init staleCtx) "good.img" 0 = some (0, fd) ∧
      ¬ slot_empty ((fdc_write fd 0x1 0x27).disk 0) ∧
      geometry_ok ((fdc_write fd 0x1 0x27).disk 0) := by
  have hsize : goodImage.bytes.length = 204800 := List.length_replicate _ _
  have key := fdc_attach_204800 sampleFs (fdc_init staleCtx) "good.img" 0 goodImage rfl hsize
  rw [if_neg (by decide)] at key
  have hne : ¬ slot_empty ((fdc_write (setDisk (fdc_init staleCtx) 0
      { (fdc_init staleCtx).disk 0 with
          size := 204800, sec_size := 1024, sec_count := 5, track_count := 40,
          data := DataPtr.buf goodImage.bytes, source := some "good.img" }) 0x1 0x27).disk 0) := by
    rw [fdc_write_disk]
    simp [setDisk, slot_empty]
  exact ⟨_, key, hne,
    reachable_geometry _
      (Reachable.write 0x1 0x27 (Reachable.attach sampleFs "good.img" 0 0
        (Reachable.init staleCtx) key)) 0 hne⟩

end NabuFdc
